import Mathlib

/-!
Verification development for the kinematics module of this repository
(`metpy/calc/kinematics.py`).

The Python source works on `pint` quantities: numpy arrays tagged with a
physical unit.  We embed a quantity as a rational-valued array together with a
dimension vector (exponents of length, mass, time, temperature, rational-valued
because `pint` dimensionalities are float-valued and `np.sqrt` halves them).
All units are taken in SI base form, so two quantities are compatible exactly
when their dimension vectors are equal, and `pint`'s `DimensionalityError` on
an incompatible addition/subtraction is embedded as an `Except` error.
2-D arrays are lists of rows; `np.gradient`'s second-order-interior /
first-order-boundary stencil is translated literally.  The storm-relative
helicity pipeline works over real numbers because it uses `np.log`/`np.exp`.
Degenerate inputs that make `numpy` raise purely shape-related errors
(arrays shorter than 2 along a differentiated axis) are modelled totally;
every claim below is settled away from those degenerate shapes.
-/

/-- A `pint` dimensionality: exponents of the base dimensions that appear in
this module.  `pint` stores float exponents (`np.sqrt` produces halves), so we
use rationals. -/
structure Dim where
  length : ℚ
  mass : ℚ
  time : ℚ
  temperature : ℚ
deriving DecidableEq, Repr

def Dim.mul (a b : Dim) : Dim :=
  ⟨a.length + b.length, a.mass + b.mass, a.time + b.time, a.temperature + b.temperature⟩

def Dim.div (a b : Dim) : Dim :=
  ⟨a.length - b.length, a.mass - b.mass, a.time - b.time, a.temperature - b.temperature⟩

/-- `np.sqrt` on a `pint` quantity halves every dimension exponent. -/
def Dim.half (a : Dim) : Dim :=
  ⟨a.length / 2, a.mass / 2, a.time / 2, a.temperature / 2⟩

def dimlessD : Dim := ⟨0, 0, 0, 0⟩
def lengthD : Dim := ⟨1, 0, 0, 0⟩
def speedD : Dim := ⟨1, 0, -1, 0⟩
def accelD : Dim := ⟨1, 0, -2, 0⟩
def pressureD : Dim := ⟨-1, 1, -2, 0⟩
def temperatureD : Dim := ⟨0, 0, 0, 1⟩
/-- 1/time, the dimension of vorticity, divergence and deformation. -/
def perSecondD : Dim := ⟨0, 0, -1, 0⟩
/-- length²/time²: geopotential, and also specific helicity (m²/s²). -/
def geopotentialD : Dim := ⟨2, 0, -2, 0⟩

/-- 2-D array of rationals, as a list of rows. -/
abbrev Mat := List (List ℚ)

/-- `arr.T` for a 2-D array: entry `(i, j)` of the transpose is entry `(j, i)`
of the array.  Out-of-range reads default to `0`; rectangular arrays (the only
ones `numpy` builds) never reach the default. -/
def transposeM {α : Type} [Zero α] (m : List (List α)) : List (List α) :=
  (List.range (m.headD []).length).map (fun j => m.map (fun r => r.getD j 0))

/-- Elementwise binary operation on two same-shaped arrays. -/
def elemwise2 {α : Type} (f : α → α → α) (a b : List (List α)) : List (List α) :=
  List.zipWith (List.zipWith f) a b

def mapMat {α β : Type} (f : α → β) (m : List (List α)) : List (List β) :=
  m.map (List.map f)

/-- `np.gradient` along one axis of a 1-D sample list with uniform spacing `d`:
centered differences at interior points, one-sided differences at the two
boundary points. -/
def grad1 (d : ℚ) (l : List ℚ) : List ℚ :=
  (List.range l.length).map (fun i =>
    if i = 0 then (l.getD 1 0 - l.getD 0 0) / d
    else if i = l.length - 1 then (l.getD i 0 - l.getD (i - 1) 0) / d
    else (l.getD (i + 1) 0 - l.getD (i - 1) 0) / (2 * d))

/-- Derivative along axis 0 (down the rows) of a 2-D array. -/
def gradAxis0 (d : ℚ) (m : Mat) : Mat :=
  transposeM ((transposeM m).map (grad1 d))

/-- Derivative along axis 1 (across the columns) of a 2-D array. -/
def gradAxis1 (d : ℚ) (m : Mat) : Mat :=
  m.map (grad1 d)

/-- Errors surfaced by the embedded computations: `pint`'s
`DimensionalityError`, Python's unpacking `ValueError` (see `ensure_yx_order`),
`numpy`'s reduction-of-empty `ValueError` (`np.min(np.where(...))`), and
CPython's `RuntimeError` for a dict whose size changed during iteration. -/
inductive KErr where
  | dimError
  | unpackError
  | emptyReduce
  | runtimeError
deriving DecidableEq, Repr

/-- A 2-D `pint` quantity: array of magnitudes plus one dimensionality. -/
structure QField where
  val : Mat
  dim : Dim
deriving DecidableEq, Repr

/-- A scalar `pint` quantity (grid spacings, Coriolis parameter, `g`). -/
structure QScalar where
  val : ℚ
  dim : Dim
deriving DecidableEq, Repr

def qfdefault : QField := ⟨[], dimlessD⟩

/-- Addition of two quantities: `pint` raises `DimensionalityError` unless the
dimensions agree (SI base units, so compatibility = equality of dimensions). -/
def addQ (a b : QField) : Except KErr QField :=
  if a.dim = b.dim then .ok ⟨elemwise2 (· + ·) a.val b.val, a.dim⟩ else .error .dimError

def subQ (a b : QField) : Except KErr QField :=
  if a.dim = b.dim then .ok ⟨elemwise2 (· - ·) a.val b.val, a.dim⟩ else .error .dimError

/-- Elementwise product of two quantity arrays; dimensions compose, so this
never raises. -/
def mulF (a b : QField) : QField :=
  ⟨elemwise2 (· * ·) a.val b.val, a.dim.mul b.dim⟩

def negF (a : QField) : QField := ⟨mapMat Neg.neg a.val, a.dim⟩

/-- Scalar-quantity times array-quantity. -/
def smulF (s : QScalar) (a : QField) : QField :=
  ⟨mapMat (fun x => s.val * x) a.val, s.dim.mul a.dim⟩

def negS (s : QScalar) : QScalar := ⟨-s.val, s.dim⟩

def divS (a b : QScalar) : QScalar := ⟨a.val / b.val, a.dim.div b.dim⟩

/-- `metpy.constants.g`, standard gravity, 9.80665 m/s². -/
def gQ : QScalar := ⟨980665 / 100000, accelD⟩

/-- `_gradient` (kinematics.py lines 21-29) for a 2-D field: wraps
`np.gradient` to handle units.  If fewer spacing arguments than axes are
given, the argument list is extended at its end with dimensionless spacings of
magnitude 1 (`args.extend([units.Quantity(1., 'dimensionless')] * ...)`), so
the supplied spacings pair with the leading axes.  Each returned derivative
carries dimension `field.dim / spacing.dim` (`zip(args, grad)`). -/
def _gradient (f : QField) (args : List QScalar) : List QField :=
  let args' := args ++ List.replicate (2 - args.length) ⟨1, dimlessD⟩
  [⟨gradAxis0 (args'.getD 0 ⟨1, dimlessD⟩).val f.val, f.dim.div (args'.getD 0 ⟨1, dimlessD⟩).dim⟩,
   ⟨gradAxis1 (args'.getD 1 ⟨1, dimlessD⟩).val f.val, f.dim.div (args'.getD 1 ⟨1, dimlessD⟩).dim⟩]

/-- `_get_gradients` (lines 36-40): `dudy, dudx = _gradient(u, dy, dx)`;
`dvdy, dvdx = _gradient(v, dy, dx)`; returns `(dudx, dudy, dvdx, dvdy)`. -/
def _get_gradients (u v : QField) (dx dy : QScalar) : QField × QField × QField × QField :=
  let gu := _gradient u [dy, dx]
  let gv := _gradient v [dy, dx]
  (gu.getD 1 qfdefault, gu.getD 0 qfdefault, gv.getD 1 qfdefault, gv.getD 0 qfdefault)

/-- The `dim_order` keyword: `'xy'`, `'yx'`, or unspecified (`None`, which
warns and is treated as `'xy'`). -/
inductive DimOrder where
  | xy
  | yx
  | unspecified
deriving DecidableEq, Repr

/-- `_is_x_first_dim` (lines 43-51): `None` warns (`FutureWarning`) and
defaults to `'xy'`; the result is `dim_order == 'xy'`. -/
def _is_x_first_dim : DimOrder → Bool
  | .yx => false
  | _ => true

/-- `_check_and_flip` on a 2-D array quantity: transpose (`arr.T`).
(Scalars and 1-D arrays pass through unchanged; the wrappers below apply this
only to their 2-D array arguments, matching the `ndim >= 2` test.) -/
def tQ (q : QField) : QField := ⟨transposeM q.val, q.dim⟩

/-- `_check_and_flip` on a tuple of two 2-D arrays (tuple results of the
combined formulas): flip each element. -/
def tQ2 (p : QField × QField) : QField × QField := (tQ p.1, tQ p.2)

/-- `v_vorticity` body (lines 110-137): `dvdx - dudy`. -/
def v_vorticity_core (u v : QField) (dx dy : QScalar) : Except KErr QField :=
  let g := _get_gradients u v dx dy
  subQ g.2.2.1 g.2.1

/-- `h_convergence` body (lines 142-169): `dudx + dvdy`. -/
def h_convergence_core (u v : QField) (dx dy : QScalar) : Except KErr QField :=
  let g := _get_gradients u v dx dy
  addQ g.1 g.2.2.2

/-- `convergence_vorticity` body (lines 174-206):
`(dudx + dvdy, dvdx - dudy)`, evaluated left to right. -/
def convergence_vorticity_core (u v : QField) (dx dy : QScalar) :
    Except KErr (QField × QField) := do
  let g := _get_gradients u v dx dy
  let c ← addQ g.1 g.2.2.2
  let w ← subQ g.2.2.1 g.2.1
  pure (c, w)

/-- `shearing_deformation` body (lines 211-238): `dvdx + dudy`. -/
def shearing_deformation_core (u v : QField) (dx dy : QScalar) : Except KErr QField :=
  let g := _get_gradients u v dx dy
  addQ g.2.2.1 g.2.1

/-- `stretching_deformation` body (lines 243-270): `dudx - dvdy`. -/
def stretching_deformation_core (u v : QField) (dx dy : QScalar) : Except KErr QField :=
  let g := _get_gradients u v dx dy
  subQ g.1 g.2.2.2

/-- `shearing_stretching_deformation` body (lines 275-307):
`(dvdx + dudy, dudx - dvdy)`. -/
def shearing_stretching_deformation_core (u v : QField) (dx dy : QScalar) :
    Except KErr (QField × QField) := do
  let g := _get_gradients u v dx dy
  let sh ← addQ g.2.2.1 g.2.1
  let st ← subQ g.1 g.2.2.2
  pure (sh, st)

/-- Result of `np.sqrt` on a quantity array: real-valued magnitudes, halved
dimension exponents. -/
structure RField where
  val : List (List ℝ)
  dim : Dim

/-- `np.sqrt` applied elementwise to a quantity array. -/
noncomputable def sqrtF (a : QField) : RField :=
  ⟨a.val.map (List.map (fun x : ℚ => Real.sqrt (x : ℝ))), a.dim.half⟩

/-- `_check_and_flip` on the real-valued result array of `total_deformation`. -/
def tR (q : RField) : RField := ⟨transposeM q.val, q.dim⟩

/-- `total_deformation` body (lines 312-345):
`np.sqrt((dvdx + dudy)**2 + (dudx - dvdy)**2)`. -/
noncomputable def total_deformation_core (u v : QField) (dx dy : QScalar) :
    Except KErr RField := do
  let g := _get_gradients u v dx dy
  let sh ← addQ g.2.2.1 g.2.1
  let st ← subQ g.1 g.2.2.2
  let sq ← addQ (mulF sh sh) (mulF st st)
  pure (sqrtF sq)

/-- `geostrophic_wind` body (lines 399-435): the normalization factor is
`1/f` when the height field's length exponent is exactly 2, else `g/f`; the
gradient is taken with deltas `[dy, dx]` (a 2-D field needs no padding), its
last two components are the y- then x-derivative, and the result is
`(-norm * d/dy, norm * d/dx)`. -/
def geostrophic_wind_core (heights : QField) (f dx dy : QScalar) : QField × QField :=
  let norm_factor := if heights.dim.length = 2 then divS ⟨1, dimlessD⟩ f else divS gQ f
  let grad := _gradient heights [dy, dx]
  let gy := grad.getD 0 qfdefault
  let gx := grad.getD 1 qfdefault
  (smulF (negS norm_factor) gy, smulF norm_factor gx)

/-- Sum a nonempty list of quantity arrays (`.sum(axis=0)` over the leading
component axis); summing an empty stack is a degenerate shape, mapped to an
error. -/
def sumQ : List QField → Except KErr QField
  | [] => .error .dimError
  | x :: xs => xs.foldlM addQ x

/-- `advection` body (lines 350-394) for a 2-D scalar and a list of 2-D wind
component arrays: the stacked wind has one more dimension than the scalar, so
the component order is reversed; the gradient of the scalar is taken with the
deltas reversed; the result is `(-grad * wind).sum(axis=0)`. -/
def advection_core (scalar : QField) (wind : List QField) (deltas : List QScalar) :
    Except KErr QField :=
  let windR := wind.reverse
  let grads := _gradient scalar deltas.reverse
  sumQ (List.zipWith (fun g w => mulF (negF g) w) grads windR)

/-- `ensure_yx_order` (lines 67-105) applied to `v_vorticity`: when x is the
first dimension, transpose every 2-D array argument, run the computation, and
transpose the result back. -/
def v_vorticity (u v : QField) (dx dy : QScalar) (o : DimOrder) : Except KErr QField :=
  if _is_x_first_dim o then (v_vorticity_core (tQ u) (tQ v) dx dy).map tQ
  else v_vorticity_core u v dx dy

def h_convergence (u v : QField) (dx dy : QScalar) (o : DimOrder) : Except KErr QField :=
  if _is_x_first_dim o then (h_convergence_core (tQ u) (tQ v) dx dy).map tQ
  else h_convergence_core u v dx dy

def convergence_vorticity (u v : QField) (dx dy : QScalar) (o : DimOrder) :
    Except KErr (QField × QField) :=
  if _is_x_first_dim o then (convergence_vorticity_core (tQ u) (tQ v) dx dy).map tQ2
  else convergence_vorticity_core u v dx dy

def shearing_deformation (u v : QField) (dx dy : QScalar) (o : DimOrder) : Except KErr QField :=
  if _is_x_first_dim o then (shearing_deformation_core (tQ u) (tQ v) dx dy).map tQ
  else shearing_deformation_core u v dx dy

def stretching_deformation (u v : QField) (dx dy : QScalar) (o : DimOrder) :
    Except KErr QField :=
  if _is_x_first_dim o then (stretching_deformation_core (tQ u) (tQ v) dx dy).map tQ
  else stretching_deformation_core u v dx dy

def shearing_stretching_deformation (u v : QField) (dx dy : QScalar) (o : DimOrder) :
    Except KErr (QField × QField) :=
  if _is_x_first_dim o then
    (shearing_stretching_deformation_core (tQ u) (tQ v) dx dy).map tQ2
  else shearing_stretching_deformation_core u v dx dy

noncomputable def total_deformation (u v : QField) (dx dy : QScalar) (o : DimOrder) :
    Except KErr RField :=
  if _is_x_first_dim o then (total_deformation_core (tQ u) (tQ v) dx dy).map tR
  else total_deformation_core u v dx dy

def geostrophic_wind (heights : QField) (f dx dy : QScalar) (o : DimOrder) :
    QField × QField :=
  if _is_x_first_dim o then tQ2 (geostrophic_wind_core (tQ heights) f dx dy)
  else geostrophic_wind_core heights f dx dy

/-- `ensure_yx_order` applied to `advection`: the scalar and every wind
component in the sequence are flipped (`_check_and_flip` recurses into
sequences); the scalar deltas pass through unchanged. -/
def advection (scalar : QField) (wind : List QField) (deltas : List QScalar) (o : DimOrder) :
    Except KErr QField :=
  if _is_x_first_dim o then (advection_core (tQ scalar) (wind.map tQ) deltas).map tQ
  else advection_core scalar wind deltas

/-- A 1-D profile `pint` quantity (helicity inputs): real magnitudes because
the helicity pipeline goes through `np.log`/`np.exp`. -/
structure PQ where
  vals : List ℝ
  dim : Dim

/-- A scalar `pint` quantity with real magnitude (layer bounds, storm motion). -/
structure SQ where
  val : ℝ
  dim : Dim

/-- `np.interp(x, xp, fp)` for an increasing sample coordinate `xp`: clamps to
`fp`'s end values outside the sampled range, linear interpolation between the
two bracketing samples inside it.  Mismatched or empty inputs make `numpy`
raise; those shapes are modelled by the final catch-all. -/
noncomputable def interpR (x : ℝ) : List ℝ → List ℝ → ℝ
  | [_], y0 :: _ => y0
  | x0 :: x1 :: xs, y0 :: y1 :: ys =>
    if x ≤ x0 then y0
    else if x ≤ x1 then y0 + (x - x0) * (y1 - y0) / (x1 - x0)
    else interpR x (x1 :: xs) (y1 :: ys)
  | _, _ => 0

/-- Modelled from the spec: `log_interp` (imported from `..calc`, whose source
is not under `src/`) interpolates the dependent values linearly against
`log(pressure)`.  Pressure decreases along a profile, so the log-pressure
coordinate is reversed to be increasing before interpolating. -/
noncomputable def log_interp (x : ℝ) (xp fp : List ℝ) : ℝ :=
  interpR (Real.log x) ((xp.map Real.log).reverse) fp.reverse

/-- Index of the first element satisfying `P`
(`np.min(np.where(P)[0])`: the smallest index equals the first match). -/
def whereFirst (P : ℝ → Prop) [DecidablePred P] : List ℝ → Option ℕ
  | [] => none
  | x :: xs => if P x then some 0 else (whereFirst P xs).map (· + 1)

/-- Index of the last element satisfying `P`
(`np.max(np.where(P)[0])`). -/
def whereLast (P : ℝ → Prop) [DecidablePred P] (l : List ℝ) : Option ℕ :=
  (whereFirst P l.reverse).map (fun i => l.length - 1 - i)

/-- `np.arange(start, stop, step)` for a nonzero step: `k`-th element is
`start + k*step`, with `⌈(stop - start)/step⌉` elements. -/
noncomputable def arangeR (start stop step : ℝ) : List ℝ :=
  (List.range (Int.toNat ⌈(stop - start) / step⌉)).map (fun k => start + k * step)

/-- The signed cross terms of the storm-relative hodograph (line 529):
`sru[1:] * srv[:-1] - sru[:-1] * srv[1:]`, i.e. element `k` is
`su[k+1]*sv[k] - su[k]*sv[k+1]`. -/
def crossTerms : List ℝ → List ℝ → List ℝ
  | a :: b :: r, c :: d :: s => (b * c - a * d) :: crossTerms (b :: r) (d :: s)
  | _, _ => []

/-- Lines 526-535: subtract the storm motion, form the cross terms, and sum
the strictly positive ones (positive helicity), the strictly negative ones
(negative helicity), and return their sum as the total. -/
noncomputable def srhStage (uInt vInt : List ℝ) (cu cv : ℝ) : ℝ × ℝ × ℝ :=
  let sru := uInt.map (fun x => x - cu)
  let srv := vInt.map (fun x => x - cv)
  let cross := crossTerms sru srv
  let ps := (cross.filter (fun x => decide (0 < x))).sum
  let ns := (cross.filter (fun x => decide (x < 0))).sum
  (ps, ns, ps + ns)

/-- Attach the `m^2/s^2` unit of the returned helicities (lines 531-533). -/
def srh_package (t : ℝ × ℝ × ℝ) : SQ × SQ × SQ :=
  (⟨t.1, geopotentialD⟩, ⟨t.2.1, geopotentialD⟩, ⟨t.2.2, geopotentialD⟩)

/-- Modelled from the spec: the `check_units` decorator (imported from
`..units`, whose source is not under `src/`) validates the required physical
dimension of every argument before the function body runs and fails eagerly on
mismatch.  `storm_relative_helicity` declares
`('[speed]', '[speed]', '[pressure]', '[length]', '[length]', '[length]',
'[speed]', '[speed]')` for `(u, v, p, srh_top, hgt, srh_bottom, storm_u,
storm_v)`. -/
def srh_check_units (u v p : PQ) (srh_top : SQ) (hgt : PQ)
    (srh_bottom storm_u storm_v : SQ) : Bool :=
  u.dim = speedD ∧ v.dim = speedD ∧ p.dim = pressureD ∧ srh_top.dim = lengthD ∧
    hgt.dim = lengthD ∧ srh_bottom.dim = lengthD ∧ storm_u.dim = speedD ∧
    storm_v.dim = speedD

/-- Lines 511-535, after the layer-bound pressures are fixed.  Exact mode
brackets the original samples between the bound pressures
(`np.min`/`np.max` of `np.where`, raising on an empty match) and splices
endpoint-interpolated winds onto them; non-exact mode interpolates on a
uniform pressure grid.  Either way the result is the staged cross-term
summation. -/
noncomputable def srh_after_bounds (uv vv pv : List ℝ) (pTop pBot cu cv dp : ℝ)
    (exact : Bool) : Except KErr (SQ × SQ × SQ) :=
  if exact then
    match whereFirst (fun x => pBot ≥ x) pv, whereLast (fun x => pTop ≤ x) pv with
    | some ind1, some ind2 =>
      let u1 := log_interp pBot pv uv
      let v1 := log_interp pBot pv vv
      let u2 := log_interp pTop pv uv
      let v2 := log_interp pTop pv vv
      let uInt := u1 :: ((uv.drop ind1).take (ind2 + 1 - ind1) ++ [u2])
      let vInt := v1 :: ((vv.drop ind1).take (ind2 + 1 - ind1) ++ [v2])
      .ok (srh_package (srhStage uInt vInt cu cv))
    | _, _ => .error .emptyReduce
  else
    let levels := arangeR pBot (pTop + dp) dp
    let uInt := levels.map (fun x => log_interp x pv uv)
    let vInt := levels.map (fun x => log_interp x pv vv)
    .ok (srh_package (srhStage uInt vInt cu cv))

/-- `storm_relative_helicity` (lines 438-535).  After the (spec-modelled)
unit check, the unit conversions to m/s are identities in this SI embedding;
the layer bounds are converted to pressures by interpolating `log(pressure)`
against height above the surface and exponentiating, except that a zero bottom
bound takes the surface pressure directly; the rest is `srh_after_bounds`. -/
noncomputable def storm_relative_helicity (u v p : PQ) (srh_top : SQ) (hgt : PQ)
    (srh_bottom storm_u storm_v : SQ) (dp : ℝ) (exact : Bool) :
    Except KErr (SQ × SQ × SQ) :=
  if srh_check_units u v p srh_top hgt srh_bottom storm_u storm_v then
    let hgtRel := hgt.vals.map (fun h => h - hgt.vals.headD 0)
    let logp := p.vals.map Real.log
    let pTop := Real.exp (interpR srh_top.val hgtRel logp)
    let pBot := if srh_bottom.val ≠ 0 then Real.exp (interpR srh_bottom.val hgtRel logp)
      else p.vals.headD 0
    srh_after_bounds u.vals v.vals p.vals pTop pBot storm_u.val storm_v.val dp exact
  else .error .dimError

/-- Spec-side definition for claim C7 (to be compared with `_gradient`): the
claim reads "the missing (outer, i.e. leading) axes are treated as having
spacing of magnitude 1 with dimensionless unit, so the supplied spacings apply
to the trailing axes", i.e. the padding would be prepended. -/
def gradientSpecC7 (f : QField) (args : List QScalar) : List QField :=
  let args' := List.replicate (2 - args.length) (⟨1, dimlessD⟩ : QScalar) ++ args
  [⟨gradAxis0 (args'.getD 0 ⟨1, dimlessD⟩).val f.val, f.dim.div (args'.getD 0 ⟨1, dimlessD⟩).dim⟩,
   ⟨gradAxis1 (args'.getD 1 ⟨1, dimlessD⟩).val f.val, f.dim.div (args'.getD 1 ⟨1, dimlessD⟩).dim⟩]

/-- Spec-side cross term for claim C8: `cross_k = su[k+1]*sv[k] - su[k]*sv[k+1]`. -/
def crossSpec (su sv : List ℝ) (k : ℕ) : ℝ :=
  su.getD (k + 1) 0 * sv.getD k 0 - su.getD k 0 * sv.getD (k + 1) 0

/-- `m` is a rectangular `r × c` array (every `numpy` 2-D array is). -/
def Rect {α : Type} (m : List (List α)) (r c : ℕ) : Prop :=
  m.length = r ∧ ∀ row ∈ m, row.length = c

/-- A Python value reaching `_check_and_flip` (lines 54-64): a 2-D array
quantity, a string, or a scalar quantity. -/
inductive PyVal where
  | arr (m : Mat) (dim : Dim)
  | str (s : String)
  | scalar (q : QScalar)
deriving DecidableEq, Repr

/-- `_check_and_flip` (lines 54-64) on a single value: 2-D arrays are
transposed, strings and scalars pass through unchanged. -/
def _check_and_flip : PyVal → PyVal
  | .arr m d => .arr (transposeM m) d
  | .str s => .str s
  | .scalar q => .scalar q

/-- Python dict assignment `kwargs[k] = v` on an insertion-ordered dict:
replace the value if the key exists, else append the new binding. -/
def upsertKV (l : List (String × PyVal)) (k : String) (v : PyVal) :
    List (String × PyVal) :=
  if l.any (fun kv => kv.1 == k) then
    l.map (fun kv => if kv.1 == k then (k, v) else kv)
  else l ++ [(k, v)]

/-- The keyword-flipping loop of `ensure_yx_order` (lines 78-79):
`for k, v in kwargs:` iterates the LIVE dict's KEYS.  CPython's dict iterator
records the dict's size when created and re-checks it on every `next()` call
(including the final one), raising `RuntimeError` if the size changed; while
the size is unchanged, entries are visited in their original insertion order
(an assignment that replaces an existing key keeps order and size).  Each
yielded key string is unpacked into `k, v`: a key that is not exactly two
characters long raises an unpacking `ValueError`; a two-character key
`'c1c2'` executes `kwargs['c1'] = _check_and_flip('c2')`, which grows the
dict whenever `'c1'` is a new key — so the NEXT iteration step then raises
`RuntimeError`.  `origSize` is the recorded size; `acc` the live dict. -/
def kwFlipGo (origSize : ℕ) (acc : List (String × PyVal)) :
    List String → Except KErr (List (String × PyVal))
  | [] => if acc.length = origSize then .ok acc else .error .runtimeError
  | key :: rest =>
    if acc.length = origSize then
      match key.toList with
      | [c1, c2] =>
        kwFlipGo origSize
          (upsertKV acc (String.mk [c1]) (_check_and_flip (.str (String.mk [c2])))) rest
      | _ => .error .unpackError
    else .error .runtimeError

/-- `ensure_yx_order` (lines 67-88) with keyword arguments, for an arbitrary
wrapped computation `core`: pop `dim_order`, decide whether x is the first
dimension, flip the positional args, run the (buggy) keyword-flipping loop,
call the computation, and flip the result back. -/
def ensure_yx_order_kwargs
    (core : List PyVal → List (String × PyVal) → Except KErr PyVal)
    (args : List PyVal) (kwargs0 : List (String × PyVal)) : Except KErr PyVal :=
  let dimOrder := (kwargs0.find? (fun kv => kv.1 == "dim_order")).map Prod.snd
  let kwargs := kwargs0.filter (fun kv => !(kv.1 == "dim_order"))
  let xFirst := match dimOrder with
    | none => true
    | some (.str s) => s == "xy"
    | some _ => false
  if xFirst then
    match kwFlipGo kwargs.length kwargs (kwargs.map Prod.fst) with
    | .ok kwargs2 => (core (args.map _check_and_flip) kwargs2).map _check_and_flip
    | .error e => .error e
  else core args kwargs


/-- Entry `(i, j)` of a 2-D array, defaulting to 0 out of range. -/
def entry {α : Type} [Zero α] (m : List (List α)) (i j : ℕ) : α :=
  (m.getD i []).getD j 0

/-- Claim C1: for every kinematic formula wrapped by the orientation adapter
and matching 2-D inputs, calling with orientation "xy" yields the transpose of
calling with orientation "yx" on the transposed arrays, applied elementwise to
each array in tuple-valued results. -/
theorem claim_c1_orientation_invariance :
    (∀ (u v : QField) (dx dy : QScalar),
      v_vorticity u v dx dy .xy = (v_vorticity (tQ u) (tQ v) dx dy .yx).map tQ) ∧
    (∀ (u v : QField) (dx dy : QScalar),
      h_convergence u v dx dy .xy = (h_convergence (tQ u) (tQ v) dx dy .yx).map tQ) ∧
    (∀ (u v : QField) (dx dy : QScalar),
      convergence_vorticity u v dx dy .xy =
        (convergence_vorticity (tQ u) (tQ v) dx dy .yx).map tQ2) ∧
    (∀ (u v : QField) (dx dy : QScalar),
      shearing_deformation u v dx dy .xy =
        (shearing_deformation (tQ u) (tQ v) dx dy .yx).map tQ) ∧
    (∀ (u v : QField) (dx dy : QScalar),
      stretching_deformation u v dx dy .xy =
        (stretching_deformation (tQ u) (tQ v) dx dy .yx).map tQ) ∧
    (∀ (u v : QField) (dx dy : QScalar),
      shearing_stretching_deformation u v dx dy .xy =
        (shearing_stretching_deformation (tQ u) (tQ v) dx dy .yx).map tQ2) ∧
    (∀ (u v : QField) (dx dy : QScalar),
      total_deformation u v dx dy .xy = (total_deformation (tQ u) (tQ v) dx dy .yx).map tR) ∧
    (∀ (scalar : QField) (wind : List QField) (deltas : List QScalar),
      advection scalar wind deltas .xy =
        (advection (tQ scalar) (wind.map tQ) deltas .yx).map tQ) ∧
    (∀ (heights : QField) (f dx dy : QScalar),
      geostrophic_wind heights f dx dy .xy =
        tQ2 (geostrophic_wind (tQ heights) f dx dy .yx)) := by
  refine ⟨?_, ?_, ?_, ?_, ?_, ?_, ?_, ?_, ?_⟩ <;> intros <;> rfl

/-- Claim C9: for `u = v = [[0,0,0],[1,1,1],[2,2,2]]` m/s, `dx = dy = 1` m and
orientation "xy", both `h_convergence` and `v_vorticity` are the all-ones 3×3
field with dimension 1/s. -/
theorem claim_c9_concrete_ones :
    h_convergence ⟨[[0,0,0],[1,1,1],[2,2,2]], speedD⟩ ⟨[[0,0,0],[1,1,1],[2,2,2]], speedD⟩
        ⟨1, lengthD⟩ ⟨1, lengthD⟩ .xy = .ok ⟨[[1,1,1],[1,1,1],[1,1,1]], perSecondD⟩ ∧
    v_vorticity ⟨[[0,0,0],[1,1,1],[2,2,2]], speedD⟩ ⟨[[0,0,0],[1,1,1],[2,2,2]], speedD⟩
        ⟨1, lengthD⟩ ⟨1, lengthD⟩ .xy = .ok ⟨[[1,1,1],[1,1,1],[1,1,1]], perSecondD⟩ := by
  constructor <;>
  norm_num [h_convergence, h_convergence_core, v_vorticity, v_vorticity_core,
    _get_gradients, _gradient, _is_x_first_dim, gradAxis0, gradAxis1, grad1, transposeM,
    tQ, addQ, subQ, elemwise2, speedD, lengthD, perSecondD, dimlessD, Dim.div,
    List.range_succ, Except.map]

/-- Claim C7, counterexample: the claim reads the missing axes as the leading
ones and the supplied spacings as applying to the trailing axes; on the field
`[[0,1],[2,3]]` with the single spacing `2 m`, `_gradient` disagrees with that
reading, because the code appends the dimensionless padding (so the supplied
spacing applies to the leading axis, and the trailing axis gets spacing 1). -/
theorem claim_c7_counterexample :
    _gradient ⟨[[0,1],[2,3]], temperatureD⟩ [⟨2, lengthD⟩] ≠
      gradientSpecC7 ⟨[[0,1],[2,3]], temperatureD⟩ [⟨2, lengthD⟩] := by
  norm_num [_gradient, gradientSpecC7, gradAxis0, gradAxis1, grad1, transposeM,
    temperatureD, lengthD, dimlessD, Dim.div, List.range_succ]

/-- Claim C7 as amended: for a 2-D field with one supplied spacing argument,
the missing TRAILING (inner) axis is treated as having spacing of magnitude 1
with dimensionless unit, and the supplied spacing applies to the LEADING
axis. -/
theorem claim_c7_amended_trailing_padding :
    ∀ (f : QField) (d : QScalar),
      _gradient f [d] = _gradient f [d, ⟨1, dimlessD⟩] ∧
      _gradient f [d] =
        [⟨gradAxis0 d.val f.val, f.dim.div d.dim⟩,
         ⟨gradAxis1 1 f.val, f.dim.div dimlessD⟩] := by
  intros
  exact ⟨rfl, rfl⟩

theorem conv_core_pair (u v : QField) (dx dy : QScalar) (c w : QField)
    (h1 : h_convergence_core u v dx dy = .ok c)
    (h2 : v_vorticity_core u v dx dy = .ok w) :
    convergence_vorticity_core u v dx dy = .ok (c, w) := by
  simp only [h_convergence_core] at h1
  simp only [v_vorticity_core] at h2
  simp only [convergence_vorticity_core, bind, Except.bind, h1, h2, pure, Except.pure]

/-- Claim C2: `convergence_vorticity` returns exactly the pair of
`h_convergence` and `v_vorticity`, elementwise identical to calling the two
single formulas separately, for either orientation. -/
theorem claim_c2_pair_equivalence :
    ∀ (u v : QField) (dx dy : QScalar) (o : DimOrder) (c w : QField),
      h_convergence u v dx dy o = .ok c →
      v_vorticity u v dx dy o = .ok w →
      convergence_vorticity u v dx dy o = .ok (c, w) := by
  intro u v dx dy o c w h1 h2
  by_cases ho : _is_x_first_dim o = true
  · simp only [h_convergence, v_vorticity, convergence_vorticity, ho, if_true] at h1 h2 ⊢
    rcases hc : h_convergence_core (tQ u) (tQ v) dx dy with e | a
    · rw [hc] at h1; simp [Except.map] at h1
    rcases hw : v_vorticity_core (tQ u) (tQ v) dx dy with e | b
    · rw [hw] at h2; simp [Except.map] at h2
    rw [hc] at h1
    rw [hw] at h2
    simp only [Except.map] at h1 h2
    rw [conv_core_pair _ _ _ _ _ _ hc hw]
    simp only [Except.map, tQ2]
    rw [Except.ok.injEq] at h1 h2
    rw [h1, h2]
  · simp only [h_convergence, v_vorticity, convergence_vorticity, ho, if_false] at h1 h2 ⊢
    exact conv_core_pair _ _ _ _ _ _ h1 h2

/-- Witness for claim C2 at the asymmetric 3×3 field from the repository's
own test suite. -/
theorem claim_c2_witness :
    h_convergence ⟨[[2,4,8],[0,2,2],[4,6,8]], speedD⟩ ⟨[[6,4,8],[2,6,0],[2,2,6]], speedD⟩
        ⟨1, lengthD⟩ ⟨2, lengthD⟩ .yx =
      .ok ⟨[[0,4,0],[1,1/2,-1/2],[2,0,5]], perSecondD⟩ ∧
    v_vorticity ⟨[[2,4,8],[0,2,2],[4,6,8]], speedD⟩ ⟨[[6,4,8],[2,6,0],[2,2,6]], speedD⟩
        ⟨1, lengthD⟩ ⟨2, lengthD⟩ .yx =
      .ok ⟨[[-1,2,7],[7/2,-3/2,-6],[-2,0,1]], perSecondD⟩ ∧
    convergence_vorticity ⟨[[2,4,8],[0,2,2],[4,6,8]], speedD⟩
        ⟨[[6,4,8],[2,6,0],[2,2,6]], speedD⟩ ⟨1, lengthD⟩ ⟨2, lengthD⟩ .yx =
      .ok (⟨[[0,4,0],[1,1/2,-1/2],[2,0,5]], perSecondD⟩,
           ⟨[[-1,2,7],[7/2,-3/2,-6],[-2,0,1]], perSecondD⟩) := by
  have hc :
      h_convergence ⟨[[2,4,8],[0,2,2],[4,6,8]], speedD⟩ ⟨[[6,4,8],[2,6,0],[2,2,6]], speedD⟩
        ⟨1, lengthD⟩ ⟨2, lengthD⟩ .yx =
      .ok ⟨[[0,4,0],[1,1/2,-1/2],[2,0,5]], perSecondD⟩ := by
    norm_num [h_convergence, h_convergence_core, _get_gradients, _gradient, _is_x_first_dim,
      gradAxis0, gradAxis1, grad1, transposeM, addQ, elemwise2, speedD, lengthD, perSecondD,
      dimlessD, Dim.div, List.range_succ]
  have hw :
      v_vorticity ⟨[[2,4,8],[0,2,2],[4,6,8]], speedD⟩ ⟨[[6,4,8],[2,6,0],[2,2,6]], speedD⟩
        ⟨1, lengthD⟩ ⟨2, lengthD⟩ .yx =
      .ok ⟨[[-1,2,7],[7/2,-3/2,-6],[-2,0,1]], perSecondD⟩ := by
    norm_num [v_vorticity, v_vorticity_core, _get_gradients, _gradient, _is_x_first_dim,
      gradAxis0, gradAxis1, grad1, transposeM, subQ, elemwise2, speedD, lengthD, perSecondD,
      dimlessD, Dim.div, List.range_succ]
  exact ⟨hc, hw, claim_c2_pair_equivalence _ _ _ _ _ _ _ hc hw⟩

theorem kwFlipGo_stuck (keys : List String) (h : ∃ k ∈ keys, k.length ≠ 2) :
    ∀ (origSize : ℕ) (acc : List (String × PyVal)),
      ∃ e, kwFlipGo origSize acc keys = .error e ∧
        (e = KErr.unpackError ∨ e = KErr.runtimeError) := by
  induction keys with
  | nil => simp at h
  | cons key rest ih =>
    intro origSize acc
    obtain ⟨k, hk, hlen⟩ := h
    by_cases hsz : acc.length = origSize
    · have hlk : key.length = key.data.length := rfl
      rcases hl : key.data with _ | ⟨c1, _ | ⟨c2, _ | ⟨c3, t⟩⟩⟩
      · exact ⟨.unpackError, by simp [kwFlipGo, hsz, String.toList, hl], Or.inl rfl⟩
      · exact ⟨.unpackError, by simp [kwFlipGo, hsz, String.toList, hl], Or.inl rfl⟩
      · rcases List.mem_cons.mp hk with rfl | hmem
        · rw [hlk, hl] at hlen
          simp at hlen
        · obtain ⟨e, he, hor⟩ := ih ⟨k, hmem, hlen⟩ origSize
            (upsertKV acc (String.mk [c1]) (_check_and_flip (.str (String.mk [c2]))))
          exact ⟨e, by simp only [kwFlipGo, hsz, if_true, String.toList, hl]; exact he, hor⟩
      · exact ⟨.unpackError, by simp [kwFlipGo, hsz, String.toList, hl], Or.inl rfl⟩
    · exact ⟨.runtimeError, by simp [kwFlipGo, hsz], Or.inr rfl⟩

/-- Claim C10, counterexample: with the default orientation and the keywords
`dx` (two characters, iterated first) and `deltas` (six characters), the loop
body's dict assignment `kwargs['d'] = ...` inserts a new key into the dict
being iterated, so the next iteration step raises CPython's RuntimeError
("dictionary changed size during iteration") — NOT the unpacking error the
claim promises for the six-character keyword. -/
theorem claim_c10_counterexample :
    (("deltas" : String).length ≠ 2) ∧
    ensure_yx_order_kwargs (fun _ _ => .ok (.str "ran")) []
        [(("dx" : String), PyVal.str "z"), (("deltas" : String), PyVal.str "z")] =
      .error .runtimeError ∧
    (KErr.runtimeError ≠ KErr.unpackError) :=
  ⟨by decide, rfl, by decide⟩

/-- Claim C10 as amended: under orientation "xy" (explicit or default) with
extra keyword arguments, the wrapped computation never runs and the call
aborts with an error.  The error is the claimed unpacking error when the
FIRST iterated extra keyword's name is not exactly two characters long; but
when a two-character keyword is processed first, its flipped dict assignment
mutates the dict under iteration and the next step raises a runtime error
instead.  In every case where some extra keyword's name is not two characters
long, the result is an unpacking or runtime error that is independent of the
wrapped computation and of the positional arguments. -/
theorem claim_c10_kwargs_error_before_core :
    (∀ (core : List PyVal → List (String × PyVal) → Except KErr PyVal)
        (args : List PyVal) (kwargs0 : List (String × PyVal))
        (kv : String × PyVal) (rest : List (String × PyVal)),
      ((kwargs0.find? (fun kv => kv.1 == "dim_order")).map Prod.snd = none ∨
       (kwargs0.find? (fun kv => kv.1 == "dim_order")).map Prod.snd =
         some (.str "xy")) →
      kwargs0.filter (fun kv => !(kv.1 == "dim_order")) = kv :: rest →
      kv.1.length ≠ 2 →
      ensure_yx_order_kwargs core args kwargs0 = .error .unpackError) ∧
    (∀ (core : List PyVal → List (String × PyVal) → Except KErr PyVal)
        (args : List PyVal) (kwargs0 : List (String × PyVal)),
      ((kwargs0.find? (fun kv => kv.1 == "dim_order")).map Prod.snd = none ∨
       (kwargs0.find? (fun kv => kv.1 == "dim_order")).map Prod.snd =
         some (.str "xy")) →
      (∃ kv ∈ kwargs0.filter (fun kv => !(kv.1 == "dim_order")), kv.1.length ≠ 2) →
      ∃ e, ensure_yx_order_kwargs core args kwargs0 = .error e ∧
        (e = KErr.unpackError ∨ e = KErr.runtimeError)) ∧
    (∀ (core core2 : List PyVal → List (String × PyVal) → Except KErr PyVal)
        (args args2 : List PyVal) (kwargs0 : List (String × PyVal)),
      ((kwargs0.find? (fun kv => kv.1 == "dim_order")).map Prod.snd = none ∨
       (kwargs0.find? (fun kv => kv.1 == "dim_order")).map Prod.snd =
         some (.str "xy")) →
      (∃ kv ∈ kwargs0.filter (fun kv => !(kv.1 == "dim_order")), kv.1.length ≠ 2) →
      ensure_yx_order_kwargs core args kwargs0 =
        ensure_yx_order_kwargs core2 args2 kwargs0) := by
  have hstuck : ∀ (kwargs0 : List (String × PyVal)),
      (∃ kv ∈ kwargs0.filter (fun kv => !(kv.1 == "dim_order")), kv.1.length ≠ 2) →
      ∃ e, kwFlipGo (kwargs0.filter (fun kv => !(kv.1 == "dim_order"))).length
          (kwargs0.filter (fun kv => !(kv.1 == "dim_order")))
          ((kwargs0.filter (fun kv => !(kv.1 == "dim_order"))).map Prod.fst) =
            .error e ∧
        (e = KErr.unpackError ∨ e = KErr.runtimeError) := by
    intro kwargs0 hbad
    obtain ⟨kv, hmem, hlen⟩ := hbad
    exact kwFlipGo_stuck _ ⟨kv.1, List.mem_map.mpr ⟨kv, hmem, rfl⟩, hlen⟩ _ _
  refine ⟨?_, ?_, ?_⟩
  · intro core args kwargs0 kv rest hdim hfil hlen
    have hflip : kwFlipGo (kv :: rest).length (kv :: rest) ((kv :: rest).map Prod.fst) =
        .error .unpackError := by
      have hlk : kv.1.length = kv.1.data.length := rfl
      rcases hl : kv.1.data with _ | ⟨c1, _ | ⟨c2, _ | ⟨c3, t⟩⟩⟩
      · simp [kwFlipGo, String.toList, hl]
      · simp [kwFlipGo, String.toList, hl]
      · rw [hlk, hl] at hlen
        simp at hlen
      · simp [kwFlipGo, String.toList, hl]
    rcases hdim with hdim | hdim <;>
      simp only [ensure_yx_order_kwargs, hdim, hfil, hflip] <;> rfl
  · intro core args kwargs0 hdim hbad
    obtain ⟨e, he, hor⟩ := hstuck kwargs0 hbad
    refine ⟨e, ?_, hor⟩
    rcases hdim with hdim | hdim <;>
      simp only [ensure_yx_order_kwargs, hdim, he] <;> rfl
  · intro core core2 args args2 kwargs0 hdim hbad
    obtain ⟨e, he, _⟩ := hstuck kwargs0 hbad
    rcases hdim with hdim | hdim <;>
      simp only [ensure_yx_order_kwargs, hdim, he, if_true] <;> rfl

/-- Witness for claim C10's amended statement: a single extra keyword
`deltas` (six characters, first and only iterated keyword) under the default
orientation aborts with the unpacking error, whatever the wrapped computation
would have returned. -/
theorem claim_c10_witness :
    (([(("deltas" : String), PyVal.str "z")].find?
        (fun kv => kv.1 == "dim_order")).map Prod.snd = none ∨
     ([(("deltas" : String), PyVal.str "z")].find?
        (fun kv => kv.1 == "dim_order")).map Prod.snd = some (.str "xy")) ∧
    ([(("deltas" : String), PyVal.str "z")].filter
        (fun kv => !(kv.1 == "dim_order")) = (("deltas" : String), PyVal.str "z") :: []) ∧
    (("deltas" : String).length ≠ 2) ∧
    ensure_yx_order_kwargs (fun _ _ => .ok (.str "ran")) []
        [(("deltas" : String), PyVal.str "z")] = .error .unpackError := by
  refine ⟨Or.inl (by decide), by decide, by decide, ?_⟩
  exact claim_c10_kwargs_error_before_core.1 _ _ _ ("deltas", PyVal.str "z") []
    (Or.inl (by decide)) (by decide) (by decide)

/-- Claim C6: `geostrophic_wind` uses normalization `1/f` for a geopotential
field (length²/time²) and `g/f` for a plain-length height field, and returns
`(u_g, v_g) = (-norm * dΦ/dy, norm * dΦ/dx)` where the partials are the
centered/one-sided finite differences (`gradAxis0` with spacing `dy`,
`gradAxis1` with spacing `dx`) of the field. -/
theorem claim_c6_geostrophic_normalization :
    ∀ (heights : QField) (f dx dy : QScalar),
      (heights.dim = geopotentialD →
        geostrophic_wind heights f dx dy .yx =
          (smulF (negS (divS ⟨1, dimlessD⟩ f))
             ⟨gradAxis0 dy.val heights.val, heights.dim.div dy.dim⟩,
           smulF (divS ⟨1, dimlessD⟩ f)
             ⟨gradAxis1 dx.val heights.val, heights.dim.div dx.dim⟩)) ∧
      (heights.dim = lengthD →
        geostrophic_wind heights f dx dy .yx =
          (smulF (negS (divS gQ f))
             ⟨gradAxis0 dy.val heights.val, heights.dim.div dy.dim⟩,
           smulF (divS gQ f)
             ⟨gradAxis1 dx.val heights.val, heights.dim.div dx.dim⟩)) := by
  intro heights f dx dy
  constructor <;> intro h <;>
    simp [geostrophic_wind, geostrophic_wind_core, _gradient, _is_x_first_dim, h,
      geopotentialD, lengthD, qfdefault]

/-- Witness for claim C6: both normalization branches at concrete fields. -/
theorem claim_c6_witness :
    ((⟨[[3]], geopotentialD⟩ : QField).dim = geopotentialD ∧
      geostrophic_wind ⟨[[3]], geopotentialD⟩ ⟨2, perSecondD⟩ ⟨1, lengthD⟩ ⟨1, lengthD⟩ .yx =
        (smulF (negS (divS ⟨1, dimlessD⟩ ⟨2, perSecondD⟩))
           ⟨gradAxis0 1 [[3]], geopotentialD.div lengthD⟩,
         smulF (divS ⟨1, dimlessD⟩ ⟨2, perSecondD⟩)
           ⟨gradAxis1 1 [[3]], geopotentialD.div lengthD⟩)) ∧
    ((⟨[[3]], lengthD⟩ : QField).dim = lengthD ∧
      geostrophic_wind ⟨[[3]], lengthD⟩ ⟨2, perSecondD⟩ ⟨1, lengthD⟩ ⟨1, lengthD⟩ .yx =
        (smulF (negS (divS gQ ⟨2, perSecondD⟩))
           ⟨gradAxis0 1 [[3]], lengthD.div lengthD⟩,
         smulF (divS gQ ⟨2, perSecondD⟩)
           ⟨gradAxis1 1 [[3]], lengthD.div lengthD⟩)) :=
  ⟨⟨rfl, (claim_c6_geostrophic_normalization _ _ _ _).1 rfl⟩,
   ⟨rfl, (claim_c6_geostrophic_normalization _ _ _ _).2 rfl⟩⟩

/-- Claim C4, counterexample: `v_vorticity` is claimed to raise a
unit-mismatch error on any argument whose dimension is incompatible with the
operation (wind components must be speeds); instead, passing temperature
fields for both wind components returns an ordinary result of dimension
temperature/length, with no error — the kinematic entry points perform no
dimension validation at all. -/
theorem claim_c4_counterexample :
    temperatureD ≠ speedD ∧
    v_vorticity ⟨[[1,1],[1,1]], temperatureD⟩ ⟨[[1,1],[1,1]], temperatureD⟩
        ⟨1, lengthD⟩ ⟨1, lengthD⟩ .yx =
      .ok ⟨[[0,0],[0,0]], ⟨-1, 0, 0, 1⟩⟩ := by
  constructor
  · decide
  · norm_num [v_vorticity, v_vorticity_core, _get_gradients, _gradient, _is_x_first_dim,
      gradAxis0, gradAxis1, grad1, transposeM, subQ, elemwise2, temperatureD, lengthD,
      dimlessD, Dim.div, List.range_succ, List.replicate]

theorem dim_div_symm_fst {a b x y : Dim} (h1 : a.div x = b.div y) (h2 : b.div x = a.div y) :
    a = b := by
  cases a; cases b; cases x; cases y
  simp only [Dim.div, Dim.mk.injEq] at h1 h2 ⊢
  obtain ⟨e1, e2, e3, e4⟩ := h1
  obtain ⟨f1, f2, f3, f4⟩ := h2
  exact ⟨by linarith, by linarith, by linarith, by linarith⟩

theorem dim_div_symm_snd {a b x y : Dim} (h1 : a.div x = b.div y) (h2 : b.div x = a.div y) :
    x = y := by
  cases a; cases b; cases x; cases y
  simp only [Dim.div, Dim.mk.injEq] at h1 h2 ⊢
  obtain ⟨e1, e2, e3, e4⟩ := h1
  obtain ⟨f1, f2, f3, f4⟩ := h2
  exact ⟨by linarith, by linarith, by linarith, by linarith⟩

/-- Claim C4 as amended: of the public entry points, only
`storm_relative_helicity` validates the required physical dimension of each
argument before any numeric work (via its `check_units` declaration), failing
eagerly on mismatch.  None of the other entry points validates anything: each
kinematic formula returns an ordinary result for EVERY argument list whose
internal quantity arithmetic is dimensionally consistent, whether or not the
dimensions are the physically required ones (the hypotheses below only
require the derivative sums to be well-formed, e.g. temperature fields for
both wind components qualify), and `geostrophic_wind` computes its `g/f`
branch for any field whose length exponent is not 2, temperature included. -/
theorem claim_c4_amended_only_srh_validates :
    (∀ (u v p : PQ) (top : SQ) (hgt : PQ) (bottom storm_u storm_v : SQ) (dp : ℝ)
        (exact : Bool),
      srh_check_units u v p top hgt bottom storm_u storm_v = false →
      storm_relative_helicity u v p top hgt bottom storm_u storm_v dp exact =
        .error .dimError) ∧
    (∀ (u v : QField) (dx dy : QScalar) (o : DimOrder),
      v.dim.div dx.dim = u.dim.div dy.dim →
      ∃ w, v_vorticity u v dx dy o = .ok w) ∧
    (∀ (u v : QField) (dx dy : QScalar) (o : DimOrder),
      u.dim.div dx.dim = v.dim.div dy.dim →
      ∃ w, h_convergence u v dx dy o = .ok w) ∧
    (∀ (u v : QField) (dx dy : QScalar) (o : DimOrder),
      u.dim.div dx.dim = v.dim.div dy.dim → v.dim.div dx.dim = u.dim.div dy.dim →
      ∃ cw, convergence_vorticity u v dx dy o = .ok cw) ∧
    (∀ (u v : QField) (dx dy : QScalar) (o : DimOrder),
      v.dim.div dx.dim = u.dim.div dy.dim →
      ∃ w, shearing_deformation u v dx dy o = .ok w) ∧
    (∀ (u v : QField) (dx dy : QScalar) (o : DimOrder),
      u.dim.div dx.dim = v.dim.div dy.dim →
      ∃ w, stretching_deformation u v dx dy o = .ok w) ∧
    (∀ (u v : QField) (dx dy : QScalar) (o : DimOrder),
      v.dim.div dx.dim = u.dim.div dy.dim → u.dim.div dx.dim = v.dim.div dy.dim →
      ∃ st, shearing_stretching_deformation u v dx dy o = .ok st) ∧
    (∀ (u v : QField) (dx dy : QScalar) (o : DimOrder),
      v.dim.div dx.dim = u.dim.div dy.dim → u.dim.div dx.dim = v.dim.div dy.dim →
      ∃ R, total_deformation u v dx dy o = .ok R) ∧
    (∀ (scalar w1 w2 : QField) (d1 d2 : QScalar) (o : DimOrder),
      (scalar.dim.div d2.dim).mul w2.dim = (scalar.dim.div d1.dim).mul w1.dim →
      ∃ a, advection scalar [w1, w2] [d1, d2] o = .ok a) ∧
    (∀ (heights : QField) (f dx dy : QScalar),
      heights.dim.length ≠ 2 →
      geostrophic_wind heights f dx dy .yx =
        (smulF (negS (divS gQ f)) ⟨gradAxis0 dy.val heights.val, heights.dim.div dy.dim⟩,
         smulF (divS gQ f) ⟨gradAxis1 dx.val heights.val, heights.dim.div dx.dim⟩)) := by
  refine ⟨?_, ?_, ?_, ?_, ?_, ?_, ?_, ?_, ?_, ?_⟩
  · intro u v p top hgt bottom storm_u storm_v dp exact h
    simp [storm_relative_helicity, h]
  · intro u v dx dy o h
    have hne : ∀ e, v_vorticity u v dx dy o ≠ .error e := by
      intro e hcon
      by_cases ho : _is_x_first_dim o = true <;>
        simp [v_vorticity, v_vorticity_core, _get_gradients, _gradient, subQ, qfdefault,
          tQ, ho, h, Except.map] at hcon
    rcases hfe : v_vorticity u v dx dy o with e | w
    · exact absurd hfe (hne e)
    · exact ⟨w, rfl⟩
  · intro u v dx dy o h
    have hne : ∀ e, h_convergence u v dx dy o ≠ .error e := by
      intro e hcon
      by_cases ho : _is_x_first_dim o = true <;>
        simp [h_convergence, h_convergence_core, _get_gradients, _gradient, addQ,
          qfdefault, tQ, ho, h, Except.map] at hcon
    rcases hfe : h_convergence u v dx dy o with e | w
    · exact absurd hfe (hne e)
    · exact ⟨w, rfl⟩
  · intro u v dx dy o h1 h2
    have hne : ∀ e, convergence_vorticity u v dx dy o ≠ .error e := by
      intro e hcon
      by_cases ho : _is_x_first_dim o = true <;>
        simp [convergence_vorticity, convergence_vorticity_core, _get_gradients,
          _gradient, addQ, subQ, qfdefault, tQ, ho, h1, h2, bind, Except.bind, pure,
          Except.pure, Except.map] at hcon
    rcases hfe : convergence_vorticity u v dx dy o with e | cw
    · exact absurd hfe (hne e)
    · exact ⟨cw, rfl⟩
  · intro u v dx dy o h
    have hne : ∀ e, shearing_deformation u v dx dy o ≠ .error e := by
      intro e hcon
      by_cases ho : _is_x_first_dim o = true <;>
        simp [shearing_deformation, shearing_deformation_core, _get_gradients, _gradient,
          addQ, qfdefault, tQ, ho, h, Except.map] at hcon
    rcases hfe : shearing_deformation u v dx dy o with e | w
    · exact absurd hfe (hne e)
    · exact ⟨w, rfl⟩
  · intro u v dx dy o h
    have hne : ∀ e, stretching_deformation u v dx dy o ≠ .error e := by
      intro e hcon
      by_cases ho : _is_x_first_dim o = true <;>
        simp [stretching_deformation, stretching_deformation_core, _get_gradients,
          _gradient, subQ, qfdefault, tQ, ho, h, Except.map] at hcon
    rcases hfe : stretching_deformation u v dx dy o with e | w
    · exact absurd hfe (hne e)
    · exact ⟨w, rfl⟩
  · intro u v dx dy o h1 h2
    have hne : ∀ e, shearing_stretching_deformation u v dx dy o ≠ .error e := by
      intro e hcon
      by_cases ho : _is_x_first_dim o = true <;>
        simp [shearing_stretching_deformation, shearing_stretching_deformation_core,
          _get_gradients, _gradient, addQ, subQ, qfdefault, tQ, ho, h1, h2, bind,
          Except.bind, pure, Except.pure, Except.map] at hcon
    rcases hfe : shearing_stretching_deformation u v dx dy o with e | st
    · exact absurd hfe (hne e)
    · exact ⟨st, rfl⟩
  · intro u v dx dy o h1 h2
    have hvu : v.dim = u.dim := dim_div_symm_fst h1 h2
    have hxy : dx.dim = dy.dim := dim_div_symm_snd h1 h2
    have hne : ∀ e, total_deformation u v dx dy o ≠ .error e := by
      intro e hcon
      by_cases ho : _is_x_first_dim o = true <;>
        simp [total_deformation, total_deformation_core, _get_gradients, _gradient, addQ,
          subQ, mulF, qfdefault, tQ, ho, hvu, hxy, bind, Except.bind, pure, Except.pure,
          Except.map] at hcon
    rcases hfe : total_deformation u v dx dy o with e | R
    · exact absurd hfe (hne e)
    · exact ⟨R, rfl⟩
  · intro scalar w1 w2 d1 d2 o h
    have hne : ∀ e, advection scalar [w1, w2] [d1, d2] o ≠ .error e := by
      intro e hcon
      by_cases ho : _is_x_first_dim o = true <;>
        simp [advection, advection_core, _gradient, sumQ, addQ, mulF, negF, qfdefault,
          tQ, ho, h, bind, Except.bind, pure, Except.pure, Except.map,
          List.foldlM] at hcon
    rcases hfe : advection scalar [w1, w2] [d1, d2] o with e | a
    · exact absurd hfe (hne e)
    · exact ⟨a, rfl⟩
  · intro heights f dx dy h
    simp [geostrophic_wind, geostrophic_wind_core, _gradient, _is_x_first_dim, h,
      qfdefault]

/-- Witness for claim C4's amended statement: a temperature profile passed as
the `u` wind makes the (spec-modelled) unit check of `storm_relative_helicity`
fail eagerly, while `v_vorticity` on dimensionally wrong but internally
consistent temperature fields returns a result with no error. -/
theorem claim_c4_witness :
    srh_check_units ⟨[290], temperatureD⟩ ⟨[0], speedD⟩ ⟨[1000], pressureD⟩ ⟨1, lengthD⟩
        ⟨[0], lengthD⟩ ⟨0, lengthD⟩ ⟨0, speedD⟩ ⟨0, speedD⟩ = false ∧
    storm_relative_helicity ⟨[290], temperatureD⟩ ⟨[0], speedD⟩ ⟨[1000], pressureD⟩
        ⟨1, lengthD⟩ ⟨[0], lengthD⟩ ⟨0, lengthD⟩ ⟨0, speedD⟩ ⟨0, speedD⟩ (-1) true =
      .error .dimError ∧
    ((⟨[[2,2],[2,2]], temperatureD⟩ : QField).dim.div ((⟨1, lengthD⟩ : QScalar)).dim =
     (⟨[[2,2],[2,2]], temperatureD⟩ : QField).dim.div ((⟨1, lengthD⟩ : QScalar)).dim) ∧
    (∃ w, v_vorticity ⟨[[2,2],[2,2]], temperatureD⟩ ⟨[[2,2],[2,2]], temperatureD⟩
        ⟨1, lengthD⟩ ⟨1, lengthD⟩ .yx = .ok w) :=
  ⟨by decide,
   claim_c4_amended_only_srh_validates.1 _ _ _ _ _ _ _ _ (-1) true (by decide),
   rfl,
   claim_c4_amended_only_srh_validates.2.1 _ _ _ _ .yx rfl⟩

theorem crossTerms_eq_map : ∀ (a b : List ℝ),
    crossTerms a b = (List.range (min a.length b.length - 1)).map (crossSpec a b)
  | [], b => by simp [crossTerms]
  | [x], b => by
    have : min ([x] : List ℝ).length b.length - 1 = 0 := by
      simp only [List.length_cons, List.length_nil]; omega
    simp [crossTerms, this]
  | x :: y :: r, [] => by simp [crossTerms]
  | x :: y :: r, [c] => by
    have : min (x :: y :: r : List ℝ).length ([c] : List ℝ).length - 1 = 0 := by
      simp only [List.length_cons, List.length_nil]; omega
    simp [crossTerms, this]
  | x :: y :: r, c :: d :: s => by
    have ih := crossTerms_eq_map (y :: r) (d :: s)
    have hmin : min (x :: y :: r : List ℝ).length (c :: d :: s : List ℝ).length - 1 =
        (min (y :: r : List ℝ).length (d :: s : List ℝ).length - 1) + 1 := by
      simp only [List.length_cons]; omega
    show (y * c - x * d) :: crossTerms (y :: r) (d :: s) = _
    rw [ih, hmin, List.range_succ_eq_map, List.map_cons, List.map_map]
    refine congrArg₂ _ ?_ ?_
    · simp [crossSpec]
    · refine List.map_congr_left (fun k _ => ?_)
      simp only [Function.comp_apply, crossSpec, List.getD_cons_succ]

theorem filter_decide_sum (P : ℝ → Prop) [DecidablePred P] (l : List ℝ) :
    (l.filter (fun x => decide (P x))).sum =
      Finset.sum (Finset.range l.length) (fun k => if P (l.getD k 0) then l.getD k 0 else 0) := by
  induction l with
  | nil => simp
  | cons a t ih =>
    rw [List.filter_cons, List.length_cons, Finset.sum_range_succ']
    simp only [List.getD_cons_succ, List.getD_cons_zero]
    rw [← ih]
    by_cases h : P a <;> simp [h, add_comm]

theorem getD_range_map {α : Type} [Zero α] (n : ℕ) (f : ℕ → α) (k : ℕ) (hk : k < n) :
    ((List.range n).map f).getD k 0 = f k := by
  rw [List.getD_eq_getElem?_getD, List.getElem?_map, List.getElem?_range hk]
  rfl

/-- Claim C8: inside the helicity stage, the cross term of each adjacent level
pair is `su[k+1]*sv[k] - su[k]*sv[k+1]`; positive helicity is the sum of
exactly the strictly positive cross terms, negative helicity the sum of
exactly the strictly negative ones (zero terms contribute to neither), and
the returned total is their sum — which therefore also equals the plain sum
of all cross terms. -/
theorem claim_c8_cross_term_sums :
    ∀ (uInt vInt : List ℝ) (cu cv : ℝ),
      crossTerms (uInt.map (fun x => x - cu)) (vInt.map (fun x => x - cv)) =
        (List.range (min uInt.length vInt.length - 1)).map
          (crossSpec (uInt.map (fun x => x - cu)) (vInt.map (fun x => x - cv))) ∧
      (srhStage uInt vInt cu cv).1 =
        Finset.sum (Finset.range (min uInt.length vInt.length - 1)) (fun k =>
          if 0 < crossSpec (uInt.map (fun x => x - cu)) (vInt.map (fun x => x - cv)) k
          then crossSpec (uInt.map (fun x => x - cu)) (vInt.map (fun x => x - cv)) k
          else 0) ∧
      (srhStage uInt vInt cu cv).2.1 =
        Finset.sum (Finset.range (min uInt.length vInt.length - 1)) (fun k =>
          if crossSpec (uInt.map (fun x => x - cu)) (vInt.map (fun x => x - cv)) k < 0
          then crossSpec (uInt.map (fun x => x - cu)) (vInt.map (fun x => x - cv)) k
          else 0) ∧
      (srhStage uInt vInt cu cv).2.2 =
        (srhStage uInt vInt cu cv).1 + (srhStage uInt vInt cu cv).2.1 ∧
      (srhStage uInt vInt cu cv).1 + (srhStage uInt vInt cu cv).2.1 =
        Finset.sum (Finset.range (min uInt.length vInt.length - 1))
          (crossSpec (uInt.map (fun x => x - cu)) (vInt.map (fun x => x - cv))) := by
  intro uInt vInt cu cv
  have hlen : min (uInt.map (fun x => x - cu)).length (vInt.map (fun x => x - cv)).length =
      min uInt.length vInt.length := by simp
  have hmap := crossTerms_eq_map (uInt.map (fun x => x - cu)) (vInt.map (fun x => x - cv))
  rw [hlen] at hmap
  have hsum : ∀ (P : ℝ → Prop), ∀ hP : DecidablePred P,
      ((crossTerms (uInt.map (fun x => x - cu)) (vInt.map (fun x => x - cv))).filter
          (fun x => @decide (P x) (hP x))).sum =
        Finset.sum (Finset.range (min uInt.length vInt.length - 1)) (fun k =>
          if P (crossSpec (uInt.map (fun x => x - cu)) (vInt.map (fun x => x - cv)) k)
          then crossSpec (uInt.map (fun x => x - cu)) (vInt.map (fun x => x - cv)) k
          else 0) := by
    intro P hP
    rw [@filter_decide_sum P hP, hmap]
    rw [List.length_map, List.length_range]
    refine Finset.sum_congr rfl (fun k hk => ?_)
    rw [getD_range_map _ _ _ (Finset.mem_range.mp hk)]
  refine ⟨hmap, ?_, ?_, ?_, ?_⟩
  · simpa only [srhStage] using hsum (fun x => 0 < x) (fun x => inferInstance)
  · simpa only [srhStage] using hsum (fun x => x < 0) (fun x => inferInstance)
  · simp [srhStage]
  · have h1 := hsum (fun x => 0 < x) (fun x => inferInstance)
    have h2 := hsum (fun x => x < 0) (fun x => inferInstance)
    simp only [srhStage]
    rw [h1, h2, ← Finset.sum_add_distrib]
    refine Finset.sum_congr rfl (fun k _ => ?_)
    rcases lt_trichotomy
      (crossSpec (uInt.map (fun x => x - cu)) (vInt.map (fun x => x - cv)) k) 0 with h | h | h
    · simp [h, not_lt_of_gt h, le_of_lt h, not_lt.mpr (le_of_lt h)]
    · simp [h]
    · simp [h, not_lt_of_gt h]
theorem length_grad1 (d : ℚ) (l : List ℚ) : (grad1 d l).length = l.length := by
  simp [grad1]

theorem rect_gradAxis1 {m : Mat} {r c : ℕ} (h : Rect m r c) (d : ℚ) :
    Rect (gradAxis1 d m) r c := by
  refine ⟨by simpa [gradAxis1] using h.1, ?_⟩
  intro row hrow
  simp only [gradAxis1, List.mem_map] at hrow
  obtain ⟨row0, hmem, rfl⟩ := hrow
  rw [length_grad1]
  exact h.2 row0 hmem

theorem rect_transposeM {α : Type} [Zero α] {m : List (List α)} {r c : ℕ}
    (h : Rect m r c) (hr : 0 < r) : Rect (transposeM m) c r := by
  have hne : m ≠ [] := by
    intro hnil
    rw [hnil] at h
    have := h.1
    simp at this
    omega
  have hcols : (m.headD []).length = c := by
    rcases m with _ | ⟨row, rest⟩
    · exact absurd rfl hne
    · exact h.2 row (List.mem_cons_self row rest)
  constructor
  · simp only [transposeM, List.length_map, List.length_range]
    exact hcols
  · intro row hrow
    simp only [transposeM, List.mem_map] at hrow
    obtain ⟨j, hj, rfl⟩ := hrow
    simp [h.1]

theorem rect_elemwise2 {α : Type} (f : α → α → α) {a b : List (List α)} {r c : ℕ}
    (ha : Rect a r c) (hb : Rect b r c) : Rect (elemwise2 f a b) r c := by
  constructor
  · simp [elemwise2, ha.1, hb.1]
  · intro row hrow
    simp only [elemwise2] at hrow
    obtain ⟨i, hlt, rfl⟩ := List.mem_iff_getElem.mp hrow
    rw [List.getElem_zipWith, List.length_zipWith]
    have hia : i < a.length := by
      rw [List.length_zipWith, ha.1, hb.1] at hlt
      rw [ha.1]; omega
    have hib : i < b.length := by
      rw [List.length_zipWith, ha.1, hb.1] at hlt
      rw [hb.1]; omega
    rw [ha.2 (a[i]) (List.getElem_mem hia), hb.2 (b[i]) (List.getElem_mem hib)]
    exact Nat.min_self c

theorem rect_mapMat {α β : Type} (f : α → β) {m : List (List α)} {r c : ℕ}
    (h : Rect m r c) : Rect (mapMat f m) r c := by
  constructor
  · simp [mapMat, h.1]
  · intro row hrow
    simp only [mapMat, List.mem_map] at hrow
    obtain ⟨row0, hmem, rfl⟩ := hrow
    simpa using h.2 row0 hmem

theorem rect_gradAxis0 {m : Mat} {r c : ℕ} (h : Rect m r c) (hr : 0 < r) (hc : 0 < c)
    (d : ℚ) : Rect (gradAxis0 d m) r c := by
  have h1 : Rect (transposeM m) c r := rect_transposeM h hr
  have h2 : Rect ((transposeM m).map (grad1 d)) c r := rect_gradAxis1 h1 d
  exact rect_transposeM h2 hc

theorem entry_elemwise2 {α : Type} [Zero α] (f : α → α → α) {a b : List (List α)} {r c : ℕ}
    (ha : Rect a r c) (hb : Rect b r c) {i j : ℕ} (hi : i < r) (hj : j < c) :
    entry (elemwise2 f a b) i j = f (entry a i j) (entry b i j) := by
  have hia : i < a.length := ha.1 ▸ hi
  have hib : i < b.length := hb.1 ▸ hi
  have hiz : i < (List.zipWith (List.zipWith f) a b).length := by
    rw [List.length_zipWith, ha.1, hb.1]
    omega
  have hja : j < (a[i]).length := by
    rw [ha.2 (a[i]) (List.getElem_mem hia)]; exact hj
  have hjb : j < (b[i]).length := by
    rw [hb.2 (b[i]) (List.getElem_mem hib)]; exact hj
  have hjz : j < (List.zipWith f (a[i]) (b[i])).length := by
    rw [List.length_zipWith]
    omega
  simp only [entry, elemwise2]
  rw [List.getD_eq_getElem _ _ hiz, List.getElem_zipWith,
    List.getD_eq_getElem _ _ hjz, List.getElem_zipWith,
    List.getD_eq_getElem _ _ hia, List.getD_eq_getElem _ _ hib,
    List.getD_eq_getElem _ _ hja, List.getD_eq_getElem _ _ hjb]

theorem entry_mapMat {α β : Type} [Zero α] [Zero β] (f : α → β) {m : List (List α)}
    {r c : ℕ} (h : Rect m r c) {i j : ℕ} (hi : i < r) (hj : j < c) :
    entry (mapMat f m) i j = f (entry m i j) := by
  have him : i < m.length := h.1 ▸ hi
  have hiz : i < (List.map (List.map f) m).length := by simpa using him
  have hjm : j < (m[i]).length := by
    rw [h.2 (m[i]) (List.getElem_mem him)]; exact hj
  have hjz : j < ((m[i]).map f).length := by simpa using hjm
  simp only [entry, mapMat]
  rw [List.getD_eq_getElem _ _ hiz, List.getElem_map,
    List.getD_eq_getElem _ _ hjz, List.getElem_map,
    List.getD_eq_getElem _ _ him, List.getD_eq_getElem _ _ hjm]

theorem entry_transposeM {α : Type} [Zero α] {m : List (List α)} {r c : ℕ}
    (h : Rect m r c) (hr : 0 < r) {i j : ℕ} (hi : i < c) (hj : j < r) :
    entry (transposeM m) i j = entry m j i := by
  have hit : i < (transposeM m).length := by
    rw [(rect_transposeM h hr).1]
    exact hi
  have hjm : j < m.length := h.1 ▸ hj
  simp only [entry]
  rw [List.getD_eq_getElem _ _ hit]
  have hcol : (transposeM m)[i] = m.map (fun rr => rr.getD i 0) := by
    simp only [transposeM]
    rw [List.getElem_map, List.getElem_range]
  rw [hcol]
  have hjmap : j < (m.map (fun rr => rr.getD i 0)).length := by simpa using hjm
  rw [List.getD_eq_getElem _ _ hjmap, List.getElem_map, List.getD_eq_getElem _ _ hjm]

theorem total_core_spec (u v : QField) (dx dy : QScalar) (r c : ℕ)
    (hu : u.dim = speedD) (hv : v.dim = speedD) (hdx : dx.dim = lengthD)
    (hdy : dy.dim = lengthD) (hru : Rect u.val r c) (hrv : Rect v.val r c)
    (hr : 0 < r) (hc : 0 < c) :
    ∃ (S T : QField) (R : RField),
      shearing_deformation_core u v dx dy = .ok S ∧
      stretching_deformation_core u v dx dy = .ok T ∧
      total_deformation_core u v dx dy = .ok R ∧
      Rect S.val r c ∧ Rect T.val r c ∧ Rect R.val r c ∧
      ∀ i j, i < r → j < c →
        entry R.val i j =
          Real.sqrt (((entry S.val i j : ℚ) : ℝ) ^ 2 + ((entry T.val i j : ℚ) : ℝ) ^ 2) ∧
        0 ≤ entry R.val i j := by
  have hA : Rect (elemwise2 (· + ·) (gradAxis1 dx.val v.val) (gradAxis0 dy.val u.val)) r c :=
    rect_elemwise2 _ (rect_gradAxis1 hrv dx.val) (rect_gradAxis0 hru hr hc dy.val)
  have hB : Rect (elemwise2 (· - ·) (gradAxis1 dx.val u.val) (gradAxis0 dy.val v.val)) r c :=
    rect_elemwise2 _ (rect_gradAxis1 hru dx.val) (rect_gradAxis0 hrv hr hc dy.val)
  have hAB : Rect (elemwise2 (· + ·)
      (elemwise2 (· * ·) (elemwise2 (· + ·) (gradAxis1 dx.val v.val) (gradAxis0 dy.val u.val))
        (elemwise2 (· + ·) (gradAxis1 dx.val v.val) (gradAxis0 dy.val u.val)))
      (elemwise2 (· * ·) (elemwise2 (· - ·) (gradAxis1 dx.val u.val) (gradAxis0 dy.val v.val))
        (elemwise2 (· - ·) (gradAxis1 dx.val u.val) (gradAxis0 dy.val v.val)))) r c :=
    rect_elemwise2 _ (rect_elemwise2 _ hA hA) (rect_elemwise2 _ hB hB)
  refine ⟨⟨elemwise2 (· + ·) (gradAxis1 dx.val v.val) (gradAxis0 dy.val u.val),
            speedD.div lengthD⟩,
          ⟨elemwise2 (· - ·) (gradAxis1 dx.val u.val) (gradAxis0 dy.val v.val),
            speedD.div lengthD⟩,
          ⟨mapMat (fun x : ℚ => Real.sqrt (x : ℝ)) (elemwise2 (· + ·)
            (elemwise2 (· * ·)
              (elemwise2 (· + ·) (gradAxis1 dx.val v.val) (gradAxis0 dy.val u.val))
              (elemwise2 (· + ·) (gradAxis1 dx.val v.val) (gradAxis0 dy.val u.val)))
            (elemwise2 (· * ·)
              (elemwise2 (· - ·) (gradAxis1 dx.val u.val) (gradAxis0 dy.val v.val))
              (elemwise2 (· - ·) (gradAxis1 dx.val u.val) (gradAxis0 dy.val v.val)))),
           ((speedD.div lengthD).mul (speedD.div lengthD)).half⟩,
          ?_, ?_, ?_, ?_, ?_, ?_, ?_⟩
  · simp [shearing_deformation_core, _get_gradients, _gradient, addQ, hu, hv, hdx, hdy,
      qfdefault]
  · simp [stretching_deformation_core, _get_gradients, _gradient, subQ, hu, hv, hdx, hdy,
      qfdefault]
  · simp [total_deformation_core, _get_gradients, _gradient, addQ, subQ, mulF, sqrtF,
      mapMat, hu, hv, hdx, hdy, qfdefault, bind, Except.bind, pure, Except.pure]
  · exact hA
  · exact hB
  · exact rect_mapMat _ hAB
  · intro i j hi hj
    constructor
    · rw [entry_mapMat _ hAB hi hj,
        entry_elemwise2 _ (rect_elemwise2 _ hA hA) (rect_elemwise2 _ hB hB) hi hj,
        entry_elemwise2 _ hA hA hi hj, entry_elemwise2 _ hB hB hi hj]
      push_cast
      congr 1
      ring
    · rw [entry_mapMat _ hAB hi hj]
      exact Real.sqrt_nonneg _

/-- Claim C3: for wind fields `u`, `v` (rectangular speed arrays) and length
spacings, `total_deformation` equals `sqrt(shearing² + stretching²)`
elementwise, and every element of the result is non-negative, for either
orientation. -/
theorem claim_c3_total_deformation :
    ∀ (u v : QField) (dx dy : QScalar) (o : DimOrder) (r c : ℕ),
      u.dim = speedD → v.dim = speedD → dx.dim = lengthD → dy.dim = lengthD →
      Rect u.val r c → Rect v.val r c → 0 < r → 0 < c →
      ∃ (S T : QField) (R : RField),
        shearing_deformation u v dx dy o = .ok S ∧
        stretching_deformation u v dx dy o = .ok T ∧
        total_deformation u v dx dy o = .ok R ∧
        ∀ i j, i < r → j < c →
          entry R.val i j =
            Real.sqrt (((entry S.val i j : ℚ) : ℝ) ^ 2 + ((entry T.val i j : ℚ) : ℝ) ^ 2) ∧
          0 ≤ entry R.val i j := by
  intro u v dx dy o r c hu hv hdx hdy hru hrv hr hc
  by_cases ho : _is_x_first_dim o = true
  · obtain ⟨S', T', R', hS, hT, hR, hrS, hrT, hrR, hent⟩ :=
      total_core_spec (tQ u) (tQ v) dx dy c r hu hv hdx hdy
        (rect_transposeM hru hr) (rect_transposeM hrv hr) hc hr
    refine ⟨tQ S', tQ T', tR R', ?_, ?_, ?_, ?_⟩
    · simp only [shearing_deformation, ho, if_true, hS, Except.map]
    · simp only [stretching_deformation, ho, if_true, hT, Except.map]
    · simp only [total_deformation, ho, if_true, hR, Except.map]
    · intro i j hi hj
      have hRS : entry (tQ S').val i j = entry S'.val j i := entry_transposeM hrS hc hi hj
      have hRT : entry (tQ T').val i j = entry T'.val j i := entry_transposeM hrT hc hi hj
      have hRR : entry (tR R').val i j = entry R'.val j i := entry_transposeM hrR hc hi hj
      rw [hRS, hRT, hRR]
      exact hent j i hj hi
  · have hb : _is_x_first_dim o = false := by
      revert ho; cases _is_x_first_dim o <;> simp
    obtain ⟨S', T', R', hS, hT, hR, hrS, hrT, hrR, hent⟩ :=
      total_core_spec u v dx dy r c hu hv hdx hdy hru hrv hr hc
    refine ⟨S', T', R', ?_, ?_, ?_, hent⟩
    · simp only [shearing_deformation, hb, Bool.false_eq_true, if_false, hS]
    · simp only [stretching_deformation, hb, Bool.false_eq_true, if_false, hT]
    · simp only [total_deformation, hb, Bool.false_eq_true, if_false, hR]

/-- Witness for claim C3 at a concrete 2×2 speed field. -/
theorem claim_c3_witness :
    (⟨[[0,1],[2,3]], speedD⟩ : QField).dim = speedD ∧
    (⟨[[1,0],[4,2]], speedD⟩ : QField).dim = speedD ∧
    (⟨1, lengthD⟩ : QScalar).dim = lengthD ∧
    Rect (⟨[[0,1],[2,3]], speedD⟩ : QField).val 2 2 ∧
    Rect (⟨[[1,0],[4,2]], speedD⟩ : QField).val 2 2 ∧
    0 < 2 ∧
    (∃ (S T : QField) (R : RField),
      shearing_deformation ⟨[[0,1],[2,3]], speedD⟩ ⟨[[1,0],[4,2]], speedD⟩
          ⟨1, lengthD⟩ ⟨1, lengthD⟩ .yx = .ok S ∧
      stretching_deformation ⟨[[0,1],[2,3]], speedD⟩ ⟨[[1,0],[4,2]], speedD⟩
          ⟨1, lengthD⟩ ⟨1, lengthD⟩ .yx = .ok T ∧
      total_deformation ⟨[[0,1],[2,3]], speedD⟩ ⟨[[1,0],[4,2]], speedD⟩
          ⟨1, lengthD⟩ ⟨1, lengthD⟩ .yx = .ok R ∧
      ∀ i j, i < 2 → j < 2 →
        entry R.val i j =
          Real.sqrt (((entry S.val i j : ℚ) : ℝ) ^ 2 + ((entry T.val i j : ℚ) : ℝ) ^ 2) ∧
        0 ≤ entry R.val i j) :=
  ⟨rfl, rfl, rfl, ⟨rfl, by decide⟩, ⟨rfl, by decide⟩, by decide,
    claim_c3_total_deformation _ _ _ _ .yx 2 2 rfl rfl rfl rfl
      ⟨rfl, by decide⟩ ⟨rfl, by decide⟩ (by decide) (by decide)⟩

theorem interpR_ge_all (x : ℝ) : ∀ (xs ys : List ℝ), xs.length = ys.length →
    List.Pairwise (· < ·) xs → (∀ z ∈ xs, z ≤ x) → xs ≠ [] →
    interpR x xs ys = ys.getLastD 0
  | [], _ => fun _ _ _ hne => absurd rfl hne
  | [x0], ys => by
    intro hlen hp hall _
    rcases ys with _ | ⟨y0, _ | ⟨y1, ys'⟩⟩
    · simp at hlen
    · simp [interpR]
    · simp at hlen
  | x0 :: x1 :: xs', ys => by
    intro hlen hp hall hne
    rcases ys with _ | ⟨y0, _ | ⟨y1, ys'⟩⟩
    · simp at hlen
    · simp at hlen
    · have h01 : x0 < x1 := (List.pairwise_cons.mp hp).1 x1 (by simp)
      have hx1le : x1 ≤ x := hall x1 (by simp)
      have hnx0 : ¬ x ≤ x0 := not_le.mpr (lt_of_lt_of_le h01 hx1le)
      rcases xs' with _ | ⟨x2, xs''⟩
      · rcases ys' with _ | ⟨y2, ys''⟩
        · simp only [interpR, hnx0, if_false]
          by_cases hx1' : x ≤ x1
          · have hxx1 : x = x1 := le_antisymm hx1' hx1le
            rw [if_pos hx1', hxx1]
            have hne01 : x1 - x0 ≠ 0 := sub_ne_zero.mpr h01.ne'
            rw [mul_comm, mul_div_assoc, div_self hne01, mul_one,
              show ([y0, y1] : List ℝ).getLastD 0 = y1 from rfl]
            ring
          · rw [if_neg hx1']
            simp [interpR, List.getLastD]
        · simp at hlen
      · have h12 : x1 < x2 :=
          (List.pairwise_cons.mp (List.pairwise_cons.mp hp).2).1 x2 (by simp)
        have hx2le : x2 ≤ x := hall x2 (by simp)
        have hnx1 : ¬ x ≤ x1 := not_le.mpr (lt_of_lt_of_le h12 hx2le)
        have ih := interpR_ge_all x (x1 :: x2 :: xs'') (y1 :: ys')
          (by simp only [List.length_cons] at hlen ⊢; omega)
          ((List.pairwise_cons.mp hp).2)
          (fun z hz => hall z (by simp only [List.mem_cons] at hz ⊢; tauto))
          (by simp)
        simp only [interpR, hnx0, hnx1, if_false]
        rw [ih]
        rcases ys' with _ | ⟨y2, ys''⟩
        · simp at hlen
        · simp [List.getLastD_cons]

/-- Claim C5 as amended: a layer top above the whole profile does not raise a
domain error; `np.interp` clamps the bound, so any two top bounds at or above
the profile's full height range give the same result (the layer is effectively
truncated to the available profile). -/
theorem claim_c5_amended_clamping :
    ∀ (u v p : PQ) (top top' : SQ) (hgt : PQ) (bottom storm_u storm_v : SQ) (dp : ℝ)
      (exact : Bool),
      top.dim = top'.dim →
      hgt.vals ≠ [] →
      List.Pairwise (· < ·) hgt.vals →
      hgt.vals.length = p.vals.length →
      (∀ h ∈ hgt.vals, h - hgt.vals.headD 0 ≤ top.val) →
      (∀ h ∈ hgt.vals, h - hgt.vals.headD 0 ≤ top'.val) →
      storm_relative_helicity u v p top hgt bottom storm_u storm_v dp exact =
        storm_relative_helicity u v p top' hgt bottom storm_u storm_v dp exact := by
  intro u v p top top' hgt bottom storm_u storm_v dp exact hdim hne hpw hlen hall hall'
  have hpw' : List.Pairwise (· < ·) (hgt.vals.map (fun h => h - hgt.vals.headD 0)) := by
    rw [List.pairwise_map]
    exact hpw.imp (fun hab => by simpa using hab)
  have hlen' : (hgt.vals.map (fun h => h - hgt.vals.headD 0)).length =
      (p.vals.map Real.log).length := by simp [hlen]
  have hne' : hgt.vals.map (fun h => h - hgt.vals.headD 0) ≠ [] := by simpa using hne
  have hall2 : ∀ z ∈ hgt.vals.map (fun h => h - hgt.vals.headD 0), z ≤ top.val := by
    intro z hz
    rw [List.mem_map] at hz
    obtain ⟨h, hh, rfl⟩ := hz
    exact hall h hh
  have hall2' : ∀ z ∈ hgt.vals.map (fun h => h - hgt.vals.headD 0), z ≤ top'.val := by
    intro z hz
    rw [List.mem_map] at hz
    obtain ⟨h, hh, rfl⟩ := hz
    exact hall' h hh
  have hint : interpR top.val (hgt.vals.map (fun h => h - hgt.vals.headD 0))
      (p.vals.map Real.log) =
    interpR top'.val (hgt.vals.map (fun h => h - hgt.vals.headD 0))
      (p.vals.map Real.log) :=
    (interpR_ge_all top.val _ _ hlen' hpw' hall2 hne').trans
      (interpR_ge_all top'.val _ _ hlen' hpw' hall2' hne').symm
  have hchk : srh_check_units u v p top hgt bottom storm_u storm_v =
      srh_check_units u v p top' hgt bottom storm_u storm_v := by
    simp [srh_check_units, hdim]
  simp only [storm_relative_helicity, hint, hchk]

/-- Claim C5, counterexample: a requested layer top of 5000 m on a profile
whose relative heights only reach 1000 m is outside the covered range, yet
`storm_relative_helicity` returns an ordinary result (here zero helicities for
the calm two-level profile) instead of raising a domain error — `np.interp`
silently clamps the out-of-range bound. -/
theorem claim_c5_counterexample :
    (([(0:ℝ), 1000].getLastD 0 < (5000:ℝ)) ∧
    storm_relative_helicity ⟨[0,0], speedD⟩ ⟨[0,0], speedD⟩ ⟨[1000,500], pressureD⟩
      ⟨5000, lengthD⟩ ⟨[0,1000], lengthD⟩ ⟨0, lengthD⟩ ⟨0, speedD⟩ ⟨0, speedD⟩ (-1) true =
    .ok (⟨0, geopotentialD⟩, ⟨0, geopotentialD⟩, ⟨0, geopotentialD⟩)) := by
  constructor
  · show ((1000:ℝ) < 5000)
    norm_num
  have h500 : (0:ℝ) < 500 := by norm_num
  have hlog : Real.log 500 < Real.log 1000 := Real.log_lt_log h500 (by norm_num)
  have hrel : (([0,1000] : List ℝ).map (fun h => h - (0:ℝ))) = [0, 1000] := by norm_num
  have hlogp : (([1000,500] : List ℝ).map Real.log) = [Real.log 1000, Real.log 500] := by
    simp
  have hint : interpR 5000 [0, 1000] [Real.log 1000, Real.log 500] = Real.log 500 := by
    rw [interpR, if_neg (by norm_num), if_neg (by norm_num)]
    simp [interpR]
  have hw1 : whereFirst (fun x => (1000:ℝ) ≥ x) [1000, 500] = some 0 := by
    rw [whereFirst, if_pos (by norm_num)]
  have hw2 : whereLast (fun x => (500:ℝ) ≤ x) [1000, 500] = some 1 := by
    rw [whereLast]
    norm_num [whereFirst]
  have hli1 : log_interp 1000 [1000, 500] [0, 0] = 0 := by
    rw [log_interp]
    have hmaprev : (([1000,500] : List ℝ).map Real.log).reverse =
        [Real.log 500, Real.log 1000] := by simp
    have hrev : (([0,0] : List ℝ)).reverse = [0, 0] := by norm_num
    rw [hmaprev, hrev, interpR, if_neg (not_le.mpr hlog), if_pos le_rfl]
    norm_num
  have hli2 : log_interp 500 [1000, 500] [0, 0] = 0 := by
    rw [log_interp]
    have hmaprev : (([1000,500] : List ℝ).map Real.log).reverse =
        [Real.log 500, Real.log 1000] := by simp
    have hrev : (([0,0] : List ℝ)).reverse = [0, 0] := by norm_num
    rw [hmaprev, hrev, interpR, if_pos le_rfl]
  have hstage : srhStage [0, 0, 0, 0] [0, 0, 0, 0] 0 0 = (0, 0, 0) := by
    norm_num [srhStage, crossTerms, List.filter]
  have hafter : srh_after_bounds [0,0] [0,0] [1000,500] 500 1000 0 0 (-1) true =
      .ok (⟨0, geopotentialD⟩, ⟨0, geopotentialD⟩, ⟨0, geopotentialD⟩) := by
    rw [srh_after_bounds]
    simp only [if_true, hw1, hw2, hli1, hli2]
    norm_num [srh_package, hstage]
  rw [storm_relative_helicity, if_pos (by decide)]
  simp only [hrel, hlogp, hint, Real.exp_log h500, ne_eq, eq_self_iff_true, not_true,
    if_false, List.headD_cons]
  exact hafter

/-- Witness for claim C5's amended statement: tops of 5000 m and 1000 m, both
at or above the full relative height range of the profile `[0, 1000]` m, give
identical results. -/
theorem claim_c5_witness :
    ((⟨5000, lengthD⟩ : SQ).dim = (⟨1000, lengthD⟩ : SQ).dim) ∧
    ((⟨[0,1000], lengthD⟩ : PQ).vals ≠ []) ∧
    List.Pairwise (· < ·) (⟨[0,1000], lengthD⟩ : PQ).vals ∧
    ((⟨[0,1000], lengthD⟩ : PQ).vals.length = (⟨[1000,500], pressureD⟩ : PQ).vals.length) ∧
    (∀ h ∈ (⟨[0,1000], lengthD⟩ : PQ).vals,
      h - (⟨[0,1000], lengthD⟩ : PQ).vals.headD 0 ≤ (⟨5000, lengthD⟩ : SQ).val) ∧
    (∀ h ∈ (⟨[0,1000], lengthD⟩ : PQ).vals,
      h - (⟨[0,1000], lengthD⟩ : PQ).vals.headD 0 ≤ (⟨1000, lengthD⟩ : SQ).val) ∧
    storm_relative_helicity ⟨[0,0], speedD⟩ ⟨[0,0], speedD⟩ ⟨[1000,500], pressureD⟩
        ⟨5000, lengthD⟩ ⟨[0,1000], lengthD⟩ ⟨0, lengthD⟩ ⟨0, speedD⟩ ⟨0, speedD⟩ (-1) true =
      storm_relative_helicity ⟨[0,0], speedD⟩ ⟨[0,0], speedD⟩ ⟨[1000,500], pressureD⟩
        ⟨1000, lengthD⟩ ⟨[0,1000], lengthD⟩ ⟨0, lengthD⟩ ⟨0, speedD⟩ ⟨0, speedD⟩ (-1) true := by
  have hp : List.Pairwise (· < ·) ([0, 1000] : List ℝ) := by
    norm_num
  have hall : ∀ h ∈ ([0, 1000] : List ℝ), h - ([0, 1000] : List ℝ).headD 0 ≤ (5000:ℝ) := by
    intro h hh
    rcases List.mem_cons.mp hh with rfl | hh
    · norm_num
    · rcases List.mem_cons.mp hh with rfl | hh
      · norm_num
      · simp at hh
  have hall' : ∀ h ∈ ([0, 1000] : List ℝ), h - ([0, 1000] : List ℝ).headD 0 ≤ (1000:ℝ) := by
    intro h hh
    rcases List.mem_cons.mp hh with rfl | hh
    · norm_num
    · rcases List.mem_cons.mp hh with rfl | hh
      · norm_num
      · simp at hh
  exact ⟨rfl, by simp, hp, rfl, hall, hall',
    claim_c5_amended_clamping _ _ _ _ _ _ _ _ _ _ _ rfl (by simp) hp rfl hall hall'⟩
